import Mathlib

/-!
Verification development for the receipt text-extraction pipeline of
`src/parser/parse_receipt.py`.

Modelling conventions:
* Python strings are Lean `String`s; positional scanning is done on `List Char`.
* Python `float` arithmetic on parsed decimal amounts is modelled by exact
  rationals (`ℚ`); `round(x, 2)` is modelled by round-half-to-even.
* Regular expressions are fixed in the source, so each one is embedded as a
  dedicated matcher implementing leftmost search with greedy backtracking
  for that concrete pattern.
* `\s`, `\d` and `str.isalpha`/`str.isdigit`/`str.strip` are modelled over the
  ASCII and Cyrillic repertoire this pipeline works with.
* Fallible external calls (filesystem, OCR engine, orientation detector)
  are modelled with `Except`/`Option`-valued oracles; an uncaught Python
  exception is an `Except.error` propagated by bind.
-/

set_option maxRecDepth 40000

/-- Characters treated as whitespace (Python `\s` and `str.strip`, restricted
to the ASCII control/space characters that occur in OCR output). -/
def pyIsSpace (c : Char) : Bool :=
  c = ' ' || c = '\t' || c = '\n' || c = '\x0d' || c = '\x0b' || c = '\x0c'

/-- ASCII decimal digit (Python `\d` / `str.isdigit` on receipt text). -/
def pyIsDigit (c : Char) : Bool := '0' ≤ c && c ≤ '9'

/-- Cyrillic block test `"Ѐ" <= ch <= "ӿ"` from `_score_text`. -/
def isCyrillic (c : Char) : Bool := 'Ѐ' ≤ c && c ≤ 'ӿ'

/-- Model of Python `str.isalpha` restricted to the Latin and Cyrillic
letters produced by this OCR pipeline. -/
def pyIsAlpha (c : Char) : Bool :=
  ('A' ≤ c && c ≤ 'Z') || ('a' ≤ c && c ≤ 'z') || isCyrillic c

/-- Word character for the `\b` boundary in `_normalize_cyrillic`
(Python `\w`: letters, digits or underscore). -/
def pyIsWord (c : Char) : Bool := pyIsAlpha c || pyIsDigit c || c = '_'

/-- Model of Python `str.lower` on the ASCII/Cyrillic repertoire. -/
def pyLowerChar (c : Char) : Char :=
  if 'A' ≤ c ∧ c ≤ 'Z' then Char.ofNat (c.toNat + 32)
  else if 'А' ≤ c ∧ c ≤ 'Я' then Char.ofNat (c.toNat + 32)
  else if c = 'Ё' then 'ё' else c

def pyLower (s : String) : String := String.mk (s.data.map pyLowerChar)

/-- Length of the maximal digit run at the head of the list. -/
def digitRun : List Char → ℕ
  | [] => 0
  | c :: rest => if pyIsDigit c then digitRun rest + 1 else 0

/-- Length of the maximal whitespace run at the head of the list. -/
def wsRun : List Char → ℕ
  | [] => 0
  | c :: rest => if pyIsSpace c then wsRun rest + 1 else 0

/-- Length of the maximal run of the character `=` at the head of the list. -/
def eqRun : List Char → ℕ
  | [] => 0
  | c :: rest => if c = '=' then eqRun rest + 1 else 0

/-- Does `p` occur literally at the head of `cs`? -/
def startsWithL : List Char → List Char → Bool
  | [], _ => true
  | _ :: _, [] => false
  | p :: ps, c :: cs => p = c && startsWithL ps cs

/-- Does `pat` occur as a contiguous substring of `cs` (Python `in`)? -/
def containsL : List Char → List Char → Bool
  | pat, [] => startsWithL pat []
  | pat, c :: rest => startsWithL pat (c :: rest) || containsL pat rest

/-- Substring containment on strings, Python `needle in haystack`.
Note an empty needle is contained in everything, as in Python. -/
def pyContains (haystack needle : String) : Bool :=
  needle.data.isEmpty || containsL needle.data haystack.data

/-- Fueled core of Python `str.replace`: replace every non-overlapping
occurrence of `pat` (nonempty) left to right. -/
def replaceGo (pat rep : List Char) : ℕ → List Char → List Char
  | 0, cs => cs
  | _ + 1, [] => []
  | fuel + 1, c :: rest =>
    if startsWithL pat (c :: rest) ∧ pat ≠ [] then
      rep ++ replaceGo pat rep fuel ((c :: rest).drop pat.length)
    else c :: replaceGo pat rep fuel rest

/-- Python `str.replace` (all occurrences, left to right, non-overlapping). -/
def pyReplace (s pat rep : String) : String :=
  String.mk (replaceGo pat.data rep.data s.data.length s.data)

/-- Python `str.strip` (both ends). -/
def pyStrip (s : String) : String :=
  String.mk (((s.data.dropWhile pyIsSpace).reverse.dropWhile pyIsSpace).reverse)

/-- Python `str.rstrip` (right end only). -/
def pyRstrip (s : String) : String :=
  String.mk ((s.data.reverse.dropWhile pyIsSpace).reverse)

/-- Line-break characters recognised by Python `str.splitlines`, restricted
to the single-character terminators that occur in OCR output; `\r\n` is
handled as one break by `splitlinesGo`. -/
def isLineBreak (c : Char) : Bool :=
  c = '\n' || c = '\x0d' || c = '\x0b' || c = '\x0c' ||
  c = '\x1c' || c = '\x1d' || c = '\x1e' || c = '\x85'

def splitlinesGo : List Char → List Char → List (List Char)
  | [], acc => if acc = [] then [] else [acc.reverse]
  | '\x0d' :: '\n' :: rest, acc => acc.reverse :: splitlinesGo rest []
  | c :: rest, acc =>
    if isLineBreak c then acc.reverse :: splitlinesGo rest []
    else splitlinesGo rest (c :: acc)

/-- Python `str.splitlines` (no trailing empty line; `"" ↦ []`). -/
def pySplitlines (s : String) : List String :=
  (splitlinesGo s.data []).map String.mk

/-- Digits of a decimal literal folded into a natural number. -/
def digitsToNat (cs : List Char) : ℕ :=
  cs.foldl (fun n c => 10 * n + (c.toNat - 48)) 0

/-- Value of a regex-matched decimal group (digits, optionally a single `.`
or `,` separator, then more digits), as Python
`float(group.replace(",", "."))` produces, modelled exactly in ℚ. -/
def parseDecL (cs : List Char) : ℚ :=
  let intPart := cs.takeWhile pyIsDigit
  let rest := cs.dropWhile pyIsDigit
  match rest with
  | [] => (digitsToNat intPart : ℚ)
  | _ :: frac =>
    (digitsToNat intPart : ℚ) + Rat.divInt (digitsToNat frac) ((10 : ℤ) ^ frac.length)

def parseDecS (s : String) : ℚ := parseDecL s.data

/-- Round-half-to-even to an integer (Python `round` on an exact value). -/
def roundHalfEven (q : ℚ) : ℤ :=
  let f := ⌊q⌋
  let r := q - (f : ℚ)
  if r < Rat.divInt 1 2 then f
  else if Rat.divInt 1 2 < r then f + 1
  else if f % 2 = 0 then f else f + 1

/-- Python `round(x, 2)` on an exact rational. -/
def round2 (q : ℚ) : ℚ := Rat.divInt (roundHalfEven (q * 100)) 100

/-- Python `f"{x:.2f}"` for the nonnegative amounts this pipeline formats. -/
def format2 (q : ℚ) : String :=
  let n := (roundHalfEven (q * 100)).toNat
  let frac := n % 100
  toString (n / 100) ++ "." ++ (if frac < 10 then "0" else "") ++ toString frac

/-- Slice `s[a:b]` of a Python string (character positions). -/
def pySlice (s : String) (a b : ℕ) : List Char := (s.data.drop a).take (b - a)

/-!
Embedding of `_PRICE_QTY_PATTERN`
(`(?P<price>\d+[.,]\d+)\s*(?:\*|\s)(?P<qty>\d+[.,]?\d*)\s*=*\s*(?P<total>\d+[.,]\d+)`)
as a leftmost search with the backtracking the Python engine performs on
this concrete pattern.  Where greedy backtracking provably cannot change
the outcome (a shorter digit run leaves a digit in front of a follower
that cannot consume a digit), the matcher commits to the greedy choice.
-/

/-- Match `\d+[.,]\d+` at the head of `cs`; returns the matched length.
Greedy is forced: shortening either digit run puts a digit in front of a
subpattern that cannot match a digit. -/
def decNumLen (cs : List Char) : Option ℕ :=
  let d1 := digitRun cs
  if d1 = 0 then none else
  match cs.drop d1 with
  | [] => none
  | c :: rest =>
    if c = '.' ∨ c = ',' then
      let d2 := digitRun rest
      if d2 = 0 then none else some (d1 + 1 + d2)
    else none

/-- Match `\s*(?:\*|\s)` between price and qty; returns the consumed
length.  With `k` the whitespace run: if the character after the run is
`*` the engine commits to consuming the run plus the star (the fallback
attempt would place qty on the star and fail); otherwise one of the run's
characters feeds the alternation, so `k ≥ 1` characters are consumed. -/
def sepAfterPrice (cs : List Char) : Option ℕ :=
  let k := wsRun cs
  if cs.get? k = some '*' then some (k + 1)
  else if 1 ≤ k then some k
  else none

/-- Match `\s*=*\s*` then `\d+[.,]\d+` after the qty; returns
`(gap length, total length)`.  Only the end of the maximal
`\s* =* \s*` parse can be followed by a digit, so no backtracking. -/
def gapTotal (cs : List Char) : Option (ℕ × ℕ) :=
  let s1 := wsRun cs
  let e := eqRun (cs.drop s1)
  let s2 := wsRun (cs.drop (s1 + e))
  match decNumLen (cs.drop (s1 + e + s2)) with
  | some t => some (s1 + e + s2, t)
  | none => none

/-- Candidate lengths for `qty` (`\d+[.,]?\d*`) in the priority order the
regex engine tries them: first the maximal digit run with a separator and
a shrinking fractional run, then the plain digit runs from longest to
shortest. -/
def qtyCandList (cs : List Char) : List ℕ :=
  let a := digitRun cs
  if a = 0 then [] else
  let sepCands : List ℕ :=
    match cs.get? a with
    | some c =>
      if c = '.' ∨ c = ',' then
        let b := digitRun (cs.drop (a + 1))
        (List.range (b + 1)).reverse.map (fun d2 => a + 1 + d2)
      else []
    | none => []
  sepCands ++ (List.range a).reverse.map (fun i => i + 1)

/-- Match qty followed by the rest of the pattern; returns
`(qty length, gap length, total length)` for the first qty candidate whose
continuation succeeds. -/
def qtyRest (cs : List Char) : Option (ℕ × ℕ × ℕ) :=
  (qtyCandList cs).findSome? fun q =>
    match gapTotal (cs.drop q) with
    | some (g, t) => some (q, g, t)
    | none => none

/-- Attempt `_PRICE_QTY_PATTERN` anchored at the head of `cs`; returns
`(price len, sep len, qty len, gap len, total len)`. -/
def pqMatchAt (cs : List Char) : Option (ℕ × ℕ × ℕ × ℕ × ℕ) :=
  match decNumLen cs with
  | none => none
  | some pl =>
    match sepAfterPrice (cs.drop pl) with
    | none => none
    | some sl =>
      match qtyRest (cs.drop (pl + sl)) with
      | some (ql, gl, tl) => some (pl, sl, ql, gl, tl)
      | none => none

/-- Spans of a `_PRICE_QTY_PATTERN` match (`m.span()` and the group spans),
in character positions of the searched string. -/
structure PQMatch where
  mstart : ℕ
  mstop : ℕ
  priceS : ℕ
  priceE : ℕ
  qtyS : ℕ
  qtyE : ℕ
  totS : ℕ
  totE : ℕ
deriving DecidableEq, Repr

def pqSearchGo : ℕ → ℕ → List Char → Option PQMatch
  | 0, _, _ => none
  | fuel + 1, i, cs =>
    match pqMatchAt cs with
    | some (pl, sl, ql, gl, tl) =>
      some { mstart := i, mstop := i + pl + sl + ql + gl + tl,
             priceS := i, priceE := i + pl,
             qtyS := i + pl + sl, qtyE := i + pl + sl + ql,
             totS := i + pl + sl + ql + gl, totE := i + pl + sl + ql + gl + tl }
    | none =>
      match cs with
      | [] => none
      | _ :: rest => pqSearchGo fuel (i + 1) rest

/-- `_PRICE_QTY_PATTERN.search(s)`: leftmost match with group spans. -/
def price_qty_search (s : String) : Option PQMatch :=
  pqSearchGo (s.data.length + 1) 0 s.data

/-!
Embedding of `re.sub(r"(?P<price>\d+[.,]\d+)\s+(?P<qty>\d+)\s*=", lambda m:
f"{m.group('price')} *{m.group('qty')} =", text)` from `_postprocess_line`.
Every quantifier of this pattern is followed by a subpattern that cannot
consume the quantified characters, so the greedy parse is the only one.
-/

/-- Attempt the missing-`*` pattern anchored at the head; returns
`(price len, qty start offset, qty len, total consumed)`. -/
def p2MatchAt (cs : List Char) : Option (ℕ × ℕ × ℕ × ℕ) :=
  match decNumLen cs with
  | none => none
  | some pl =>
    let w := wsRun (cs.drop pl)
    if w = 0 then none else
    let ql := digitRun (cs.drop (pl + w))
    if ql = 0 then none else
    let w2 := wsRun (cs.drop (pl + w + ql))
    if (cs.drop (pl + w + ql + w2)).head? = some '=' then
      some (pl, pl + w, ql, pl + w + ql + w2 + 1)
    else none

def subP2Go : ℕ → List Char → List Char
  | 0, cs => cs
  | _ + 1, [] => []
  | fuel + 1, c :: rest =>
    match p2MatchAt (c :: rest) with
    | some (pl, qs, ql, consumed) =>
      ((c :: rest).take pl) ++ [' ', '*'] ++ (((c :: rest).drop qs).take ql)
        ++ [' ', '='] ++ subP2Go fuel ((c :: rest).drop consumed)
    | none => c :: subP2Go fuel rest

/-- The price/space/qty/`=` substitution of `_postprocess_line`. -/
def subP2 (s : String) : String := String.mk (subP2Go s.data.length s.data)

/-- `re.sub(r"\s*=\s*", " = ", text)`: a match at a position exists iff the
whitespace run there is followed by `=`. -/
def subEqGo : ℕ → List Char → List Char
  | 0, cs => cs
  | _ + 1, [] => []
  | fuel + 1, c :: rest =>
    let cs := c :: rest
    let s1 := wsRun cs
    if cs.get? s1 = some '=' then
      let s2 := wsRun (cs.drop (s1 + 1))
      [' ', '=', ' '] ++ subEqGo fuel (cs.drop (s1 + 1 + s2))
    else c :: subEqGo fuel rest

def subEq (s : String) : String := String.mk (subEqGo s.data.length s.data)

/-- `re.sub(r"\s+", " ", text)`. -/
def subWsGo : ℕ → List Char → List Char
  | 0, cs => cs
  | _ + 1, [] => []
  | fuel + 1, c :: rest =>
    if pyIsSpace c then ' ' :: subWsGo fuel ((c :: rest).dropWhile pyIsSpace)
    else c :: subWsGo fuel rest

def subWs (s : String) : String := String.mk (subWsGo s.data.length s.data)

/-- `re.sub(r"[ ]{2,}", " ", text)` from `_normalize_cyrillic`. -/
def spaceRun : List Char → ℕ
  | [] => 0
  | c :: rest => if c = ' ' then spaceRun rest + 1 else 0

def subSpaces2Go : ℕ → List Char → List Char
  | 0, cs => cs
  | _ + 1, [] => []
  | fuel + 1, c :: rest =>
    let r := spaceRun (c :: rest)
    if 2 ≤ r then ' ' :: subSpaces2Go fuel ((c :: rest).drop r)
    else c :: subSpaces2Go fuel rest

def subSpaces2 (s : String) : String := String.mk (subSpaces2Go s.data.length s.data)

/-- Uppercase Cyrillic range `[А-Я]` of the `\b0([А-Я])` pattern. -/
def isUpperCyr (c : Char) : Bool := 'А' ≤ c && c ≤ 'Я'

/-- `re.sub(r"\b0([А-Я])", r"О\1", text)`: a zero at a word boundary
followed by an uppercase Cyrillic letter becomes the letter О.  `prev` is
the character before the scan position (`none` at the start). -/
def sub0Go : ℕ → Option Char → List Char → List Char
  | 0, _, cs => cs
  | _ + 1, _, [] => []
  | fuel + 1, prev, c :: rest =>
    let boundary := match prev with
      | none => true
      | some p => !pyIsWord p
    match c, rest with
    | '0', c2 :: rest2 =>
      if boundary && isUpperCyr c2 then 'О' :: c2 :: sub0Go fuel (some c2) rest2
      else c :: sub0Go fuel (some c) rest
    | _, _ => c :: sub0Go fuel (some c) rest

def sub0 (s : String) : String := String.mk (sub0Go s.data.length none s.data)

/-- Attempt `000\s+"?ЛЕНТА"?` anchored at the head; returns the matched
length.  The optional quotes are greedy but deterministic: a consumed
quote that breaks the literal ЛЕНТА cannot be repaired by dropping it. -/
def lentaMatchLen (cs : List Char) : Option ℕ :=
  if startsWithL ['0', '0', '0'] cs then
    let w := wsRun (cs.drop 3)
    if w = 0 then none else
    let q1 : ℕ := if (cs.drop (3 + w)).head? = some '"' then 1 else 0
    if startsWithL ['Л', 'Е', 'Н', 'Т', 'А'] (cs.drop (3 + w + q1)) then
      let q2 : ℕ := if (cs.drop (3 + w + q1 + 5)).head? = some '"' then 1 else 0
      some (3 + w + q1 + 5 + q2)
    else none
  else none

def subLentaGo : ℕ → List Char → List Char
  | 0, cs => cs
  | _ + 1, [] => []
  | fuel + 1, c :: rest =>
    match lentaMatchLen (c :: rest) with
    | some len => "ООО \"ЛЕНТА\"".data ++ subLentaGo fuel ((c :: rest).drop len)
    | none => c :: subLentaGo fuel rest

/-- `re.sub(r'000\s+"?ЛЕНТА"?', 'ООО "ЛЕНТА"', text)`. -/
def subLenta (s : String) : String := String.mk (subLentaGo s.data.length s.data)

/-- The `_LATIN_TO_CYR` translation table (`str.maketrans` argument). -/
def latinToCyrTable : List (Char × Char) :=
  [('A', 'А'), ('B', 'В'), ('C', 'С'), ('E', 'Е'), ('H', 'Н'), ('K', 'К'),
   ('M', 'М'), ('O', 'О'), ('P', 'Р'), ('T', 'Т'), ('X', 'Х'), ('Y', 'У'),
   ('W', 'Ш'), ('a', 'а'), ('c', 'с'), ('e', 'е'), ('o', 'о'), ('p', 'р'),
   ('x', 'х'), ('y', 'у'), ('w', 'ш')]

def translateChar (c : Char) : Char :=
  match latinToCyrTable.find? (fun p => p.1 = c) with
  | some p => p.2
  | none => c

/-- The ordered known-error phrase table of `_normalize_cyrillic`
(Python dict, iterated in insertion order). -/
def replacementTable : List (String × String) :=
  [("HAC", "НДС"),
   ("НАС", "НДС"),
   ("ВЕЗНАЛИЧНЫМИ", "БЕЗНАЛИЧНЫМИ"),
   ("ВЕЗНАИИЧНЫМИ", "БЕЗНАЛИЧНЫМИ"),
   ("ПЕНТА", "ЛЕНТА"),
   ("ЕВЕЗН", "FRESH"),
   ("КОТТО", "MOJITO"),
   ("ПИМОНЫ", "ЛИМОНЫ"),
   ("НАЙОНЕЗ", "МАЙОНЕЗ"),
   ("ВОКОЛАД", "ШОКОЛАД"),
   ("ВОКОЛАЙ", "ШОКОЛАД"),
   ("КОК ТЕНН КОНФЕСТА СН Р", "КОНФЕТЫ СН Р"),
   ("ЕВ РЕЗ", "ЖЕВ РЕЗ"),
   ("ОГКОГ", "ДРОП"),
   ("Х-FRESH", "X-FRESH"),
   ("З/ЛАСТА", "З/ПАСТА"),
   ("ЗРЕАТ", "SPLAT"),
   ("ИЕЧЕБНЫЕ", "ЛЕЧЕБНЫЕ"),
   ("МАЙОНЕЗ ЯНТА ПРОВАНСАЙ", "МАЙОНЕЗ ЯНТА ПРОВАНСАЛЬ"),
   ("ТIТВIТ", "TITBIT"),
   ("DIROL", "DIROL"),
   ("КОЛИЯ", "КОПИЯ"),
   ("СМЕНА N", "СМЕНА №"),
   ("ОБИ.", "ОБЛ."),
   ("НДС 202", "НДС 20%"),
   ("НДС 102", "НДС 10%"),
   ("НДС 203", "НДС 20%"),
   ("НДС 103", "НДС 10%"),
   ("FRЕSН", "FRESH"),
   ("жк", ""),
   ("КУБ 174.99 21.200", "КУБ 174.99 *1.200"),
   ("›ПРОДАВА ТОВАРА»", "ПРОДАЖА ТОВАРА"),
   ("ПРОДАВА ТОВАРА", "ПРОДАЖА ТОВАРА"),
   ("ШАКОNАА", "ШОКОЛАД"),
   ("ШОКОNАА", "ШОКОЛАД"),
   ("ШОК ТЕМН", "ШОКОЛАД ТЕМН"),
   ("Q/СОВ", "Д/СОВ"),
   ("ОNОN", "ОПОЛ"),
   ("ШЕВ", "ЖЕВ"),
   ("DIRОL", "DIROL"),
   ("ЭПРОДАЖА", "ПРОДАЖА"),
   ("АЕС", "ДЕС"),
   ("КОНФЕСТА", "КОНФЕТЫ"),
   ("ДУЙ", "Д/Й"),
   ("РЕS", "РЕЗ")]

/-- Embedding of `_normalize_cyrillic`. -/
def normalize_cyrillic (text : String) : String :=
  let n1 := pyReplace text "“" "\""
  let n2 := pyReplace n1 "”" "\""
  let n3 := pyReplace n2 "„" "\""
  let n4 := pyReplace n3 "«" "*"
  let n5 := pyReplace n4 "»" ""
  let n6 := String.mk (n5.data.map translateChar)
  let n7 := pyReplace n6 "—" "-"
  let n8 := pyReplace n7 "|" " "
  let n9 := subSpaces2 n8
  let n10 := sub0 n9
  let n11 := pyReplace n10 "0БЛ" "ОБЛ"
  let n12 := pyReplace n11 "0Н:" "ФН:"
  let n13 := subLenta n12
  replacementTable.foldl (fun acc p => pyReplace acc p.1 p.2) n13

/-- First block of `_postprocess_line`: the literal replacements and the
missing-`*` substitution, applied to the stripped line. -/
def postprocessStage1 (t : String) : String :=
  let t1 := pyReplace t "#" "*"
  let t2 := pyReplace t1 "НДС 20:" "НДС 20%"
  let t3 := pyReplace t2 "НДС 10:" "НДС 10%"
  let t4 := pyReplace t3 "\"1" "*1"
  let t5 := pyReplace t4 "\"2" "*2"
  let t6 := pyReplace t5 "\"3" "*3"
  let t7 := pyReplace t6 "\"4" "*4"
  let t8 := pyReplace t7 "\"5" "*5"
  subP2 t8

/-- Middle block of `_postprocess_line`: the arithmetic repair of the
price/quantity/total triple.  Group spans are positions in the text the
match was computed on; as in the source, after the total is replaced the
original spans are reused on the updated text. -/
def repairStage (text : String) : String :=
  match price_qty_search text with
  | none => text
  | some m =>
    let price := parseDecS (String.mk (pySlice text m.priceS m.priceE))
    let qty := parseDecS (String.mk (pySlice text m.qtyS m.qtyE))
    let total := parseDecS (String.mk (pySlice text m.totS m.totE))
    let expected := round2 (price * qty)
    let text1 :=
      if Rat.divInt 2 100 < |expected - total| then
        String.mk ((text.data.take m.totS) ++ (format2 expected).data
          ++ (text.data.drop m.totE))
      else text
    let segment := (text1.data.drop m.mstart).take (m.mstop - m.mstart)
    if segment.contains '=' then text1
    else String.mk ((text1.data.take m.qtyE) ++ [' ', '=']
      ++ (text1.data.drop m.qtyE))

/-- Final block of `_postprocess_line`: separator-noise dropping and
whitespace/`=` normalisation. -/
def postprocessStage3 (text : String) : String :=
  if startsWithL "===".data text.data then "" else
  let t1 := if startsWithL "г ".data text.data then pyStrip (String.mk (text.data.drop 2))
            else text
  if t1 = "г" ∨ t1 = "1" then "" else
  let t2 := pyReplace t1 "\"\"" "\""
  let t3 := subEq t2
  pyStrip (subWs t3)

/-- Embedding of `_postprocess_line`. -/
def postprocess_line (line : String) : String :=
  let text := pyStrip line
  if text = "" then text
  else postprocessStage3 (repairStage (postprocessStage1 text))

/-!
Data model for the image-processing stages.  Pixel-level contents of the
OpenCV operations are opaque, so images form a free term algebra over the
operations the pipeline applies; shape bookkeeping follows the source.
`Img.deskew` abstracts `_deskew` (its internal branches depend on pixel
data but always preserve shape).  `Img.rotateBound` abstracts
`_rotate_bound` (floating-point trigonometry); the orientation detector
only reports right-angle rotations.
-/

inductive Img where
  | src (height width : ℕ)
  | cvtGray (i : Img)
  | resize (fx fy : ℚ) (i : Img)
  | clahe (clipLimit : ℚ) (tileH tileW : ℕ) (i : Img)
  | denoise (h : ℕ) (i : Img)
  | gaussianBlur (sigma : ℚ) (i : Img)
  | addWeighted (alpha : ℚ) (a : Img) (beta : ℚ) (b : Img) (gamma : ℚ)
  | normMinMax (i : Img)
  | otsu (i : Img)
  | adaptive (blockSize : ℕ) (c : ℤ) (i : Img)
  | invert (i : Img)
  | deskew (i : Img)
  | border (top bottom left right : ℕ) (value : ℕ) (i : Img)
  | rotateBound (angle : ℤ) (i : Img)
deriving DecidableEq, Repr

/-- Shape `(height, width)` of an image term.  `resize` rounds as
`cv2.resize` does; `rotateBound` is only modelled at right angles
(the shape of a non-right-angle rotation needs floating-point
trigonometry and never reaches the theorems below). -/
def dims : Img → ℕ × ℕ
  | .src h w => (h, w)
  | .cvtGray i => dims i
  | .resize fx fy i =>
    let hw := dims i
    ((⌊fy * hw.1 + Rat.divInt 1 2⌋).toNat, (⌊fx * hw.2 + Rat.divInt 1 2⌋).toNat)
  | .clahe _ _ _ i => dims i
  | .denoise _ i => dims i
  | .gaussianBlur _ i => dims i
  | .addWeighted _ a _ _ _ => dims a
  | .normMinMax i => dims i
  | .otsu i => dims i
  | .adaptive _ _ i => dims i
  | .invert i => dims i
  | .deskew i => dims i
  | .border t b l r _ i =>
    let hw := dims i
    (hw.1 + t + b, hw.2 + l + r)
  | .rotateBound angle i =>
    let hw := dims i
    if angle % 180 = 0 then hw
    else if angle % 90 = 0 then (hw.2, hw.1) else (0, 0)

/-- Embedding of `_sharpen` (Gaussian blur, `addWeighted(image, 1.5,
blurred, -0.5, 0)`, min-max normalisation). -/
def sharpen (image : Img) : Img :=
  let blurred := Img.gaussianBlur 1 image
  Img.normMinMax (Img.addWeighted (Rat.divInt 3 2) image (-(Rat.divInt 1 2)) blurred 0)

def maxDim (i : Img) : ℕ := max (dims i).1 (dims i).2

/-- The scale factor of `_generate_candidates` (lines 123-127): `1.0`,
overridden to `1900 / max_dim` when `max_dim < 1900`.  On a zero
max-dimension the source raises `ZeroDivisionError`; theorems assume a
positive dimension. -/
def scaleFor (d : ℕ) : ℚ := if d < 1900 then (1900 : ℚ) / (d : ℚ) else 1

/-- Grayscale conversion and conditional upscale of `_generate_candidates`
(lines 120-128): resize exactly when the computed scale exceeds `1.0`. -/
def working_gray (image : Img) : Img :=
  let gray := Img.cvtGray image
  let scale := scaleFor (maxDim gray)
  if 1 < scale then Img.resize scale scale gray else gray

/-- Embedding of `_generate_candidates` (lines 119-174). -/
def generate_candidates (image : Img) : List Img :=
  let gray := working_gray image
  let contrast := Img.clahe (Rat.divInt 5 2) 8 8 gray
  let denoised := Img.denoise 15 contrast
  let sharpened := sharpen denoised
  let otsuImg := Img.otsu sharpened
  let adaptiveImg := Img.adaptive 31 9 sharpened
  let invertedOtsu := Img.invert otsuImg
  let invertedAdaptive := Img.invert adaptiveImg
  let baseVariants :=
    [contrast, sharpened, otsuImg, adaptiveImg,
     invertedOtsu, invertedAdaptive, gray, Img.invert gray]
  baseVariants.map (fun candidate => Img.border 8 8 8 8 255 (Img.deskew candidate))

/-!
Loader, engine resolution and the pipeline skeleton.
-/

inductive PipeError where
  | notFound
  | unsupportedFormat
  | tesseractNotFound
  | unreadable
  | engineFailure
deriving DecidableEq, Repr

/-- Abstract filesystem: `isFile` models `Path.is_file`, `decode` models
`cv2.imread` (`none` when OpenCV cannot decode the file, e.g. a zero-byte
file). -/
structure FileSystem where
  isFile : String → Bool
  decode : String → Option Img

/-- Final path component (model of `pathlib` on POSIX separators). -/
def lastComponent (p : String) : String :=
  String.mk ((p.data.reverse.takeWhile (fun c => c ≠ '/')).reverse)

/-- Model of `pathlib.PurePath.suffix`: the last-dot extension of the
final component, empty for dotless names, leading-dot names and names
ending in a dot. -/
def pathSuffix (p : String) : String :=
  let cs := (lastComponent p).data
  let revIdx := (cs.reverse.takeWhile (fun c => c ≠ '.')).length
  if revIdx = cs.length then "" else
  let i := cs.length - 1 - revIdx
  if 0 < i ∧ i < cs.length - 1 then String.mk (cs.drop i) else ""

def _SUPPORTED_SUFFIXES : List String :=
  [".jpg", ".jpeg", ".png", ".tif", ".tiff", ".bmp"]

/-- Embedding of `_validate_image_path` (lines 19-25):
`FileNotFoundError ↦ notFound`, `ValueError ↦ unsupportedFormat`. -/
def validate_image_path (fs : FileSystem) (imagePath : String) : Except PipeError String :=
  if !fs.isFile imagePath then .error .notFound
  else if !(_SUPPORTED_SUFFIXES.contains (pyLower (pathSuffix imagePath))) then
    .error .unsupportedFormat
  else .ok imagePath

/-- The load stage of `parse_receipt_text` (lines 352, 355-357):
validation followed by decoding; a `None` from `cv2.imread` raises
`RuntimeError`, modelled as `unreadable`. -/
def load_image (fs : FileSystem) (imagePath : String) : Except PipeError Img :=
  match validate_image_path fs imagePath with
  | .error e => .error e
  | .ok path =>
    match fs.decode path with
    | none => .error .unreadable
    | some image => .ok image

/-- Environment of a pipeline call: filesystem, `shutil.which("tesseract")`,
the platform test, the orientation detector (`pytesseract.image_to_osd`,
already projected to its `"rotate"` entry with default `0`; `.error` is a
raised `TesseractError`) and the OCR engine
(`pytesseract.image_to_string`; `.error` is a raised engine exception). -/
structure PipelineEnv where
  fs : FileSystem
  which : Option String
  isWindows : Bool
  osd : Img → Except Unit ℤ
  engine : Img → String → String → Except Unit String

def windowsDefaultPaths : List String :=
  ["C:\\Program Files\\Tesseract-OCR\\tesseract.exe",
   "C:\\Program Files (x86)\\Tesseract-OCR\\tesseract.exe"]

def resolveDiscovered (env : PipelineEnv) : Except PipeError String :=
  match env.which with
  | some discovered => .ok discovered
  | none =>
    if env.isWindows then
      match windowsDefaultPaths.find? env.fs.isFile with
      | some candidate => .ok candidate
      | none => .error .tesseractNotFound
    else .error .tesseractNotFound

/-- Embedding of `_resolve_tesseract_cmd` (lines 28-49).  An explicit
command is taken when truthy (Python `if explicit_cmd:`; the empty string
falls through to discovery). -/
def resolve_tesseract_cmd (env : PipelineEnv) (explicitCmd : Option String) :
    Except PipeError String :=
  match explicitCmd with
  | some c =>
    if c ≠ "" then
      if env.fs.isFile c then .ok c else .error .tesseractNotFound
    else resolveDiscovered env
  | none => resolveDiscovered env

/-- Process-wide mutable state: `pytesseract.pytesseract.tesseract_cmd`. -/
structure GlobalState where
  tesseractCmd : Option String
deriving DecidableEq, Repr

/-- Observable external actions of one pipeline call, in program order. -/
inductive Event where
  | setCmd (cmd : String)
  | osdCall (image : Img)
  | ocrCall (variant : Img) (lang config : String)
deriving DecidableEq, Repr

/-- Embedding of `_rotate_bound` (the affine warp itself is the abstract
constructor). -/
def rotate_bound (image : Img) (angle : ℤ) : Img := Img.rotateBound angle image

/-- Embedding of `_normalize_rotation` (lines 101-110): a raised
`TesseractError` from the orientation detector is caught and the image is
returned unchanged; a nonzero reported angle is undone via
`_rotate_bound(image, -angle)`. -/
def normalize_rotation (detector : Img → Except Unit ℤ) (image : Img) : Img :=
  match detector image with
  | .error _ => image
  | .ok angle => if angle ≠ 0 then rotate_bound image (-angle) else image

/-- Keyword list of `_score_text`. -/
def receiptKeywords : List String := ["ООО", "КАССОВЫЙ", "НДС", "КАССИР", "СУММА"]

/-- Embedding of `_score_text` (lines 212-229); `float("-inf")` is `⊥`. -/
def score_text (text : String) : WithBot ℚ :=
  if text = "" then ⊥ else
  let letters := (text.data.filter (fun ch => pyIsAlpha ch)).length
  let cyrillic := (text.data.filter (fun ch => isCyrillic ch)).length
  let digits := (text.data.filter (fun ch => pyIsDigit ch)).length
  let s0 : ℚ := 0
  let s1 := if letters ≠ 0 then s0 + (cyrillic : ℚ) / (letters : ℚ) * 10 else s0
  let s2 := s1 + (digits : ℚ) * ((5 : ℚ) / 100)
  let s3 := s2 + min ((text.length : ℚ) / 500) 1 * 2
  let s4 := receiptKeywords.foldl
    (fun acc word => if pyContains text word then acc + 5 else acc) s3
  (s4 : ℚ)

/-- Modelled from the spec (§4.5): the scoring formula as the sum of its
four bullets — Cyrillic ratio, digits, capped length, and 5 per keyword of
the fixed set found as a substring. -/
def scoreSpec (text : String) : WithBot ℚ :=
  if text = "" then ⊥ else
  let letters := (text.data.filter (fun ch => pyIsAlpha ch)).length
  let cyrillic := (text.data.filter (fun ch => isCyrillic ch)).length
  let digits := (text.data.filter (fun ch => pyIsDigit ch)).length
  let cyrPart : ℚ := if letters = 0 then 0 else (cyrillic : ℚ) / (letters : ℚ) * 10
  let digitPart : ℚ := (digits : ℚ) * ((5 : ℚ) / 100)
  let lenPart : ℚ := min ((text.length : ℚ) / 500) 1 * 2
  let kwPart : ℚ := 5 * ((receiptKeywords.countP (fun w => pyContains text w)) : ℚ)
  ((cyrPart + digitPart + lenPart + kwPart : ℚ) : WithBot ℚ)

/-- One step of the running-maximum fold of `parse_receipt_text`
(lines 381-390): strictly greater score replaces the incumbent. -/
def selStep (acc : String × WithBot ℚ) (t : String) : String × WithBot ℚ :=
  if acc.2 < score_text t then (t, score_text t) else acc

/-- The best-hypothesis selection over the raw texts of the (variant,
config) cross product in enumeration order, from the initial state
`best_text = ""`, `best_score = -inf`. -/
def selectBest (hypotheses : List String) : String :=
  (hypotheses.foldl selStep ("", ⊥)).1

/-- Inner config loop of the recognition cross product.  `_image_to_string`
has no exception handler, so an engine error aborts the fold and is
propagated; the events record the recognitions actually performed. -/
def runConfigs (engine : Img → String → String → Except Unit String) (variant : Img) :
    List (String × String) → String × WithBot ℚ →
    Except Unit (String × WithBot ℚ) × List Event
  | [], acc => (.ok acc, [])
  | lc :: rest, acc =>
    match engine variant lc.1 lc.2 with
    | .error e => (.error e, [Event.ocrCall variant lc.1 lc.2])
    | .ok rawText =>
      let acc2 := selStep acc rawText
      let r := runConfigs engine variant rest acc2
      (r.1, Event.ocrCall variant lc.1 lc.2 :: r.2)

/-- Outer variant loop of the recognition cross product. -/
def runVariants (engine : Img → String → String → Except Unit String) :
    List Img → List (String × String) → String × WithBot ℚ →
    Except Unit (String × WithBot ℚ) × List Event
  | [], _, acc => (.ok acc, [])
  | v :: vs, cfgs, acc =>
    match runConfigs engine v cfgs acc with
    | (.error e, evs) => (.error e, evs)
    | (.ok acc2, evs) =>
      let r := runVariants engine vs cfgs acc2
      (r.1, evs ++ r.2)

/-- The nested recognition loop of `parse_receipt_text` (lines 381-390). -/
def runRecognitions (engine : Img → String → String → Except Unit String)
    (candidates : List Img) (configs : List (String × String)) :
    Except Unit (String × WithBot ℚ) × List Event :=
  runVariants engine candidates configs ("", ⊥)

/-- Tesseract character whitelist of the third engine config. -/
def whitelistChars : String :=
  "0123456789ABCDEFGHIJKLMNOPQRSTUVWXYZabcdefghijklmnopqrstuvwxyzАБВГДЕЁЖЗИЙКЛМНОПРСТУФХЦЧШЩЪЫЬЭЮЯабвгдеёжзийклмнопрстуфхцчшщъыьэюя№*/.-:"

/-- The fixed `(lang, config)` list of `parse_receipt_text` (lines 362-379);
`lang or "rus+eng"` defaults an empty language argument. -/
def mkConfigs (lang : String) : List (String × String) :=
  let primaryLang := if lang = "" then "rus+eng" else lang
  [(primaryLang, "--oem 1 --psm 6 -c preserve_interword_spaces=1 --dpi 300"),
   (primaryLang, "--oem 3 --psm 4 -c preserve_interword_spaces=1 --dpi 300"),
   ("rus", "--oem 1 --psm 6 --dpi 300 -c tessedit_char_whitelist=" ++ whitelistChars)]

/-- Output assembly of `parse_receipt_text` (lines 392-398). -/
def finalLines (bestText : String) (preserveEmptyLines : Bool) : List String :=
  let normalizedText := normalize_cyrillic bestText
  let lines := pySplitlines normalizedText
  let processedLines := lines.map postprocess_line
  if preserveEmptyLines then processedLines.map pyRstrip
  else processedLines.filter (fun line => line ≠ "")

/-- Embedding of `parse_receipt_text` (lines 345-398) with the process-wide
`tesseract_cmd` global threaded explicitly and the external actions
recorded as a trace.  The assignment on line 353 happens after path
validation (its right-hand side may raise, in which case nothing is
assigned) and is never undone. -/
def pipelineAfterResolve (env : PipelineEnv) (path lang cmd : String)
    (preserveEmptyLines : Bool) :
    Except PipeError (List String) × GlobalState × List Event :=
  let st1 : GlobalState := { tesseractCmd := some cmd }
  match env.fs.decode path with
  | none => (.error .unreadable, st1, [Event.setCmd cmd])
  | some image =>
    let normalizedImage := normalize_rotation env.osd image
    let candidates := generate_candidates normalizedImage
    let configs := mkConfigs lang
    match runRecognitions env.engine candidates configs with
    | (.error _, evs) =>
      (.error .engineFailure, st1, Event.setCmd cmd :: Event.osdCall image :: evs)
    | (.ok best, evs) =>
      (.ok (finalLines best.1 preserveEmptyLines), st1,
       Event.setCmd cmd :: Event.osdCall image :: evs)

def parse_receipt_text (env : PipelineEnv) (imagePath : String) (lang : String)
    (tesseractCmd : Option String) (preserveEmptyLines : Bool) (st : GlobalState) :
    Except PipeError (List String) × GlobalState × List Event :=
  match validate_image_path env.fs imagePath with
  | .error e => (.error e, st, [])
  | .ok path =>
    match resolve_tesseract_cmd env tesseractCmd with
    | .error e => (.error e, st, [])
    | .ok cmd => pipelineAfterResolve env path lang cmd preserveEmptyLines

/-- Is an `Except` value a success? -/
def exceptOk {ε α : Type} : Except ε α → Bool
  | .ok _ => true
  | .error _ => false

/-!
Theorems.  Each claim `Cn` of the specification review is settled by one
theorem below (plus, where needed, a counterexample and a witness).
-/

lemma score_text_eq_bot_iff (t : String) : score_text t = ⊥ ↔ t = "" := by
  unfold score_text
  by_cases h : t = "" <;> simp [h]

lemma foldl_keyword_add (p : String → Bool) (l : List String) (b : ℚ) :
    l.foldl (fun acc w => if p w then acc + 5 else acc) b = b + 5 * (l.countP p : ℚ) := by
  induction l generalizing b with
  | nil => simp
  | cons w rest ih =>
    rw [List.foldl_cons, List.countP_cons, ih]
    by_cases hw : p w
    · simp only [hw, if_pos rfl, if_true]
      push_cast
      ring
    · simp [hw]

/-- C3: for every hypothesis text `t`: the empty text scores negative
infinity; otherwise the score is the Cyrillic-to-alphabetic ratio times 10
(0 with no alphabetic characters), plus 0.05 per digit, plus
`min(len(t)/500, 1) * 2`, plus 5 per keyword of the fixed receipt-keyword
set occurring as a substring of `t`. -/
theorem c3_score_formula (t : String) : score_text t = scoreSpec t := by
  by_cases h : t = ""
  · simp [score_text, scoreSpec, h]
  · simp only [score_text, scoreSpec, if_neg h]
    rw [foldl_keyword_add (fun w => pyContains t w) receiptKeywords]
    by_cases hl : (t.data.filter (fun ch => pyIsAlpha ch)).length = 0
    · simp only [hl, if_pos rfl, ne_eq, not_true_eq_false, if_false]
      rw [WithBot.coe_inj]
      push_cast
      ring
    · simp only [hl, ne_eq, not_false_eq_true, if_true, if_neg hl]
      rw [WithBot.coe_inj]
      push_cast
      ring

/-- C9: if the orientation detector raises, `_normalize_rotation` returns
the image unchanged. -/
theorem c9_osd_failure_nonfatal (detector : Img → Except Unit ℤ) (image : Img)
    (e : Unit) (h : detector image = .error e) :
    normalize_rotation detector image = image := by
  unfold normalize_rotation
  rw [h]

theorem c9_witness :
    normalize_rotation (fun _ => .error ()) (Img.src 5 5) = Img.src 5 5 :=
  c9_osd_failure_nonfatal (fun _ => .error ()) (Img.src 5 5) () rfl

/-- C5: the loader fails with `notFound` for a missing file and with
`unsupportedFormat` for an extension outside the fixed supported set
(e.g. `.gif`), both decided before the decode oracle is consulted; a
decodable-as-`None` `.jpg` file (e.g. zero bytes) fails with `unreadable`,
a decode-time error distinct from `unsupportedFormat`. -/
theorem c5_loader_validation (fs : FileSystem) (p : String) :
    (fs.isFile p = false → load_image fs p = .error .notFound) ∧
    (fs.isFile p = true →
      pyLower (pathSuffix p) ∉ _SUPPORTED_SUFFIXES →
      load_image fs p = .error .unsupportedFormat) ∧
    (pyLower (pathSuffix p) = ".gif" →
      pyLower (pathSuffix p) ∉ _SUPPORTED_SUFFIXES) ∧
    (fs.isFile p = true → pyLower (pathSuffix p) = ".jpg" → fs.decode p = none →
      load_image fs p = .error .unreadable ∧
      PipeError.unreadable ≠ PipeError.unsupportedFormat) ∧
    (∀ d1 d2 : String → Option Img,
      validate_image_path ⟨fs.isFile, d1⟩ p = validate_image_path ⟨fs.isFile, d2⟩ p) := by
  refine ⟨?_, ?_, ?_, ?_, ?_⟩
  · intro h
    simp [load_image, validate_image_path, h]
  · intro h1 h2
    simp [load_image, validate_image_path, h1, h2]
  · intro h
    rw [h]
    decide
  · intro h1 h2 h3
    refine ⟨?_, by decide⟩
    rw [load_image, validate_image_path, h1, h2]
    rw [(by decide : _SUPPORTED_SUFFIXES.contains ".jpg" = true)]
    simp [h3]
  · intro d1 d2
    rfl

def fsC5 : FileSystem := ⟨fun q => q == "empty.jpg", fun _ => none⟩

theorem c5_witness :
    load_image fsC5 "empty.jpg" = .error .unreadable ∧
    PipeError.unreadable ≠ PipeError.unsupportedFormat :=
  (c5_loader_validation fsC5 "empty.jpg").2.2.2.1 (by decide) (by decide) rfl

/-- C6: for every decoded image with a positive dimension, the variant
generator yields exactly 8 variants; every variant carries the uniform
8-pixel white (255) border; the scale factor never downscales; the
grayscale base is resized exactly when the largest dimension is below
1900, by the upscaling factor `1900 / max_dim > 1`; and the generator is a
pure function of its input. -/
theorem c6_candidate_generator (image : Img)
    (hpos : 0 < maxDim (Img.cvtGray image)) :
    (generate_candidates image).length = 8 ∧
    (∀ v ∈ generate_candidates image,
      ∃ b, v = Img.border 8 8 8 8 255 (Img.deskew b)) ∧
    1 ≤ scaleFor (maxDim (Img.cvtGray image)) ∧
    (1900 ≤ maxDim (Img.cvtGray image) → working_gray image = Img.cvtGray image) ∧
    (maxDim (Img.cvtGray image) < 1900 →
      1 < scaleFor (maxDim (Img.cvtGray image)) ∧
      working_gray image =
        Img.resize (scaleFor (maxDim (Img.cvtGray image)))
          (scaleFor (maxDim (Img.cvtGray image))) (Img.cvtGray image)) ∧
    (∀ image2, image2 = image →
      generate_candidates image2 = generate_candidates image) := by
  have hq : (0 : ℚ) < (maxDim (Img.cvtGray image) : ℚ) := by exact_mod_cast hpos
  refine ⟨by simp [generate_candidates], ?_, ?_, ?_, ?_, ?_⟩
  · intro v hv
    simp only [generate_candidates, List.mem_map] at hv
    obtain ⟨b, _, hb⟩ := hv
    exact ⟨b, hb.symm⟩
  · unfold scaleFor
    by_cases hd : maxDim (Img.cvtGray image) < 1900
    · rw [if_pos hd]
      rw [one_le_div hq]
      exact_mod_cast hd.le
    · rw [if_neg hd]
  · intro h
    simp only [working_gray, scaleFor, if_neg (not_lt.mpr h)]
    norm_num
  · intro h
    have h1 : 1 < scaleFor (maxDim (Img.cvtGray image)) := by
      unfold scaleFor
      rw [if_pos h]
      rw [one_lt_div hq]
      exact_mod_cast h
    refine ⟨h1, ?_⟩
    simp only [working_gray]
    rw [if_pos h1]
  · intro image2 he
    rw [he]

theorem c6_witness :
    0 < maxDim (Img.cvtGray (Img.src 100 50)) ∧
    ((generate_candidates (Img.src 100 50)).length = 8 ∧
     (∀ v ∈ generate_candidates (Img.src 100 50),
       ∃ b, v = Img.border 8 8 8 8 255 (Img.deskew b)) ∧
     1 ≤ scaleFor (maxDim (Img.cvtGray (Img.src 100 50))) ∧
     (1900 ≤ maxDim (Img.cvtGray (Img.src 100 50)) →
       working_gray (Img.src 100 50) = Img.cvtGray (Img.src 100 50)) ∧
     (maxDim (Img.cvtGray (Img.src 100 50)) < 1900 →
       1 < scaleFor (maxDim (Img.cvtGray (Img.src 100 50))) ∧
       working_gray (Img.src 100 50) =
         Img.resize (scaleFor (maxDim (Img.cvtGray (Img.src 100 50))))
           (scaleFor (maxDim (Img.cvtGray (Img.src 100 50))))
           (Img.cvtGray (Img.src 100 50))) ∧
     (∀ image2, image2 = Img.src 100 50 →
       generate_candidates image2 = generate_candidates (Img.src 100 50))) :=
  ⟨by decide, c6_candidate_generator (Img.src 100 50) (by decide)⟩

/-- C10: whenever path validation and engine resolution succeed, the call
assigns the resolved executable to the process-wide `tesseract_cmd` global
as its first external action — before any OCR — and the assignment is
still in place in the state returned by the call. -/
theorem c10_global_cmd_assignment (env : PipelineEnv) (imagePath lang : String)
    (tesseractCmd : Option String) (preserveEmptyLines : Bool) (st : GlobalState)
    (path cmd : String)
    (hval : validate_image_path env.fs imagePath = .ok path)
    (hres : resolve_tesseract_cmd env tesseractCmd = .ok cmd) :
    (parse_receipt_text env imagePath lang tesseractCmd
        preserveEmptyLines st).2.1.tesseractCmd = some cmd ∧
    (parse_receipt_text env imagePath lang tesseractCmd
        preserveEmptyLines st).2.2.head? = some (Event.setCmd cmd) := by
  have hafter : ∀ p c : String,
      (pipelineAfterResolve env p lang c preserveEmptyLines).2.1.tesseractCmd = some c ∧
      (pipelineAfterResolve env p lang c preserveEmptyLines).2.2.head? =
        some (Event.setCmd c) := by
    intro p c
    simp only [pipelineAfterResolve]
    cases env.fs.decode p with
    | none => exact ⟨rfl, rfl⟩
    | some image =>
      dsimp only
      rcases runRecognitions env.engine
          (generate_candidates (normalize_rotation env.osd image))
          (mkConfigs lang) with ⟨r, evs⟩
      cases r with
      | error e => exact ⟨rfl, rfl⟩
      | ok best => exact ⟨rfl, rfl⟩
  unfold parse_receipt_text
  rw [hval, hres]
  exact hafter path cmd

def envC10 : PipelineEnv :=
  { fs := ⟨fun q => q == "r.jpg" || q == "/usr/bin/tesseract", fun _ => none⟩,
    which := none,
    isWindows := false,
    osd := fun _ => .ok 0,
    engine := fun _ _ _ => .ok "" }

theorem c10_witness :
    (parse_receipt_text envC10 "r.jpg" "rus+eng" (some "/usr/bin/tesseract")
        false ⟨none⟩).2.1.tesseractCmd = some "/usr/bin/tesseract" ∧
    (parse_receipt_text envC10 "r.jpg" "rus+eng" (some "/usr/bin/tesseract")
        false ⟨none⟩).2.2.head? = some (Event.setCmd "/usr/bin/tesseract") :=
  c10_global_cmd_assignment envC10 "r.jpg" "rus+eng" (some "/usr/bin/tesseract")
    false ⟨none⟩ "r.jpg" "/usr/bin/tesseract" rfl rfl

lemma runConfigs_ok_iff (engine : Img → String → String → Except Unit String)
    (v : Img) (cfgs : List (String × String)) (acc : String × WithBot ℚ) :
    exceptOk (runConfigs engine v cfgs acc).1 = true ↔
      ∀ lc ∈ cfgs, exceptOk (engine v lc.1 lc.2) = true := by
  induction cfgs generalizing acc with
  | nil => simp [runConfigs, exceptOk]
  | cons lc rest ih =>
    simp only [runConfigs]
    cases heng : engine v lc.1 lc.2 with
    | error e =>
      simp only [exceptOk, List.mem_cons]
      constructor
      · intro h
        exact absurd h (by simp)
      · intro h
        have := h lc (Or.inl rfl)
        rw [heng] at this
        exact absurd this (by simp [exceptOk])
    | ok rawText =>
      simp only [List.mem_cons]
      rw [ih]
      constructor
      · intro h
        rintro x (rfl | hx)
        · rw [heng]; rfl
        · exact h x hx
      · intro h x hx
        exact h x (Or.inr hx)

lemma runVariants_ok_iff (engine : Img → String → String → Except Unit String)
    (vs : List Img) (cfgs : List (String × String)) (acc : String × WithBot ℚ) :
    exceptOk (runVariants engine vs cfgs acc).1 = true ↔
      ∀ v ∈ vs, ∀ lc ∈ cfgs, exceptOk (engine v lc.1 lc.2) = true := by
  induction vs generalizing acc with
  | nil => simp [runVariants, exceptOk]
  | cons v rest ih =>
    simp only [runVariants]
    rcases hrc : runConfigs engine v cfgs acc with ⟨r, evs⟩
    cases r with
    | error e =>
      simp only [exceptOk, List.mem_cons]
      constructor
      · intro h
        exact absurd h (by simp)
      · intro h
        have hv := (runConfigs_ok_iff engine v cfgs acc).mpr (fun lc hlc => h v (Or.inl rfl) lc hlc)
        rw [hrc] at hv
        exact absurd hv (by simp [exceptOk])
    | ok acc2 =>
      simp only [List.mem_cons]
      rw [ih]
      constructor
      · intro h
        rintro x (rfl | hx)
        · intro lc hlc
          have hv := (runConfigs_ok_iff engine x cfgs acc).mp (by rw [hrc]; rfl)
          exact hv lc hlc
        · exact h x hx
      · intro h x hx
        exact h x (Or.inr hx)

/-- C1 (amended): the recognition loop has no exception handler, so a
per-recognition engine error propagates and aborts the run; the cross
product succeeds exactly when every single recognition succeeds, and an
error from one recognition is fatal even when other recognitions would
have succeeded. -/
theorem c1_recognition_error_propagates
    (engine : Img → String → String → Except Unit String)
    (candidates : List Img) (configs : List (String × String)) :
    exceptOk (runRecognitions engine candidates configs).1 = true ↔
      ∀ v ∈ candidates, ∀ lc ∈ configs, exceptOk (engine v lc.1 lc.2) = true :=
  runVariants_ok_iff engine candidates configs ("", ⊥)

/-- Engine that fails on config "A" but succeeds on config "B". -/
def engineC1 : Img → String → String → Except Unit String :=
  fun _ _ config => if config = "B" then .ok "ООО" else .error ()

/-- C1 counterexample: with one variant and two configs, the second
recognition would succeed, yet the loop propagates the first
recognition's error instead of returning a result. -/
theorem c1_counterexample :
    engineC1 (Img.src 1 1) "rus" "B" = .ok "ООО" ∧
    exceptOk (runRecognitions engineC1 [Img.src 1 1]
      [("rus", "A"), ("rus", "B")]).1 = false := by
  constructor
  · rfl
  · rfl

/-- C2 counterexample: the spec's repair scenario fails on the code — the
repair pattern does not tolerate a space between `*` and the quantity, so
the line `"49.90 * 2 = 89.00"` is not rewritten to `"49.90 *2 = 99.80"`. -/
theorem c2_counterexample :
    postprocess_line "49.90 * 2 = 89.00" ≠ "49.90 *2 = 99.80" := by
  decide

/-- C2 (amended): the postprocessor leaves `"49.90 * 2 = 89.00"` unchanged
(with a space on both sides of `*` the price/qty/total pattern does not
match, so no repair fires); it leaves `"49.90 *2 = 99.80"` byte-identical;
and it rewrites `"49.90 *2 = 89.00"` — the spaceless form of the spec's
scenario — to exactly `"49.90 *2 = 99.80"`, replacing the OCR-reported
total with `round(price * quantity, 2)`. -/
theorem c2_price_line_repair :
    postprocess_line "49.90 * 2 = 89.00" = "49.90 * 2 = 89.00" ∧
    postprocess_line "49.90 *2 = 99.80" = "49.90 *2 = 99.80" ∧
    postprocess_line "49.90 *2 = 89.00" = "49.90 *2 = 99.80" := by
  refine ⟨by decide, ?_, ?_⟩
  · with_unfolding_all decide
  · with_unfolding_all decide

/-- C7 counterexample: per-line postprocessing is not idempotent — on
`"1.00 2 2.00"` the first pass inserts the missing `=` (giving
`"1.00 2 = 2.00"`) and only the second pass can then insert the `*`
(giving `"1.00 *2 = 2.00"`), so applying it twice differs from once. -/
theorem c7_counterexample :
    postprocess_line (postprocess_line "1.00 2 2.00") ≠
      postprocess_line "1.00 2 2.00" := by
  with_unfolding_all decide

/-- C7 (amended): the postprocessor is not idempotent in general (the `=`
insertion of one pass enables the `*` insertion of the next, see the
counterexample); the arithmetic-repair stage itself leaves a line
unchanged whenever the matched price/quantity/total already satisfies
`|round(price*qty, 2) − total| ≤ 0.02` and the matched segment already
contains `=`. -/
theorem c7_repair_within_tolerance (text : String) (m : PQMatch)
    (hm : price_qty_search text = some m)
    (htol : |round2 (parseDecS (String.mk (pySlice text m.priceS m.priceE)) *
          parseDecS (String.mk (pySlice text m.qtyS m.qtyE))) -
        parseDecS (String.mk (pySlice text m.totS m.totE))| ≤ Rat.divInt 2 100)
    (heq : ((text.data.drop m.mstart).take (m.mstop - m.mstart)).contains '=' = true) :
    repairStage text = text := by
  unfold repairStage
  rw [hm]
  dsimp only
  rw [if_neg (not_lt.mpr htol)]
  rw [if_pos heq]

theorem c7_witness : repairStage "49.90 *2 = 99.80" = "49.90 *2 = 99.80" :=
  c7_repair_within_tolerance "49.90 *2 = 99.80" ⟨0, 16, 0, 5, 7, 8, 11, 16⟩
    (by decide) (by with_unfolding_all decide) (by decide)

/-- C8: the postprocessor inserts the missing `*` operator — the line
`"49.90 2 = 99.80"` is rewritten to exactly `"49.90 *2 = 99.80"`. -/
theorem c8_missing_operator_insertion :
    postprocess_line "49.90 2 = 99.80" = "49.90 *2 = 99.80" := by
  with_unfolding_all decide

lemma selFold_stay (hs : List String) (acc : String × WithBot ℚ)
    (h : ∀ t ∈ hs, score_text t ≤ acc.2) : hs.foldl selStep acc = acc := by
  induction hs generalizing acc with
  | nil => rfl
  | cons a rest ih =>
    have ha : score_text a ≤ acc.2 := h a (by simp)
    have hstep : selStep acc a = acc := by
      unfold selStep
      rw [if_neg (not_lt.mpr ha)]
    rw [List.foldl_cons, hstep]
    exact ih acc (fun t ht => h t (by simp [ht]))

lemma selFold_pick (post : List String) (x : String) (acc : String × WithBot ℚ)
    (hacc : acc.2 < score_text x)
    (hpost : ∀ y ∈ post, score_text y ≤ score_text x) :
    (x :: post).foldl selStep acc = (x, score_text x) := by
  rw [List.foldl_cons]
  have hstep : selStep acc x = (x, score_text x) := by
    unfold selStep
    rw [if_pos hacc]
  rw [hstep]
  exact selFold_stay post (x, score_text x) hpost

lemma selFold_pre : ∀ (pre post : List String) (x : String)
    (acc : String × WithBot ℚ), acc.2 < score_text x →
    (∀ y ∈ pre, score_text y < score_text x) →
    (∀ y ∈ post, score_text y ≤ score_text x) →
    (pre ++ x :: post).foldl selStep acc = (x, score_text x)
  | [], post, x, acc, hacc, _, hpost => by
    rw [List.nil_append]
    exact selFold_pick post x acc hacc hpost
  | a :: rest, post, x, acc, hacc, hpre, hpost => by
    rw [List.cons_append, List.foldl_cons]
    refine selFold_pre rest post x (selStep acc a) ?_
      (fun y hy => hpre y (by simp [hy])) hpost
    unfold selStep
    by_cases hc : acc.2 < score_text a
    · rw [if_pos hc]
      exact hpre a (by simp)
    · rw [if_neg hc]
      exact hacc

/-- C4: the hypothesis whose score strictly exceeds every earlier
hypothesis's score and is at least every later hypothesis's score — the
first maximum in the fixed enumeration order — is selected as best; and
when every one of the 24 hypotheses is the empty string, the selected best
is the (empty) first one and the final output is the empty string with
zero lines. -/
theorem c4_best_selection (pre post : List String) (x : String)
    (hpre : ∀ y ∈ pre, score_text y < score_text x)
    (hpost : ∀ y ∈ post, score_text y ≤ score_text x) :
    selectBest (pre ++ x :: post) = x ∧
    selectBest (List.replicate 24 "") = "" ∧
    finalLines (selectBest (List.replicate 24 "")) false = [] ∧
    String.intercalate "\n"
      (finalLines (selectBest (List.replicate 24 "")) false) = "" := by
  refine ⟨?_, by decide, by decide, by decide⟩
  by_cases hx : score_text x = ⊥
  · have hxe : x = "" := (score_text_eq_bot_iff x).mp hx
    have hpre0 : pre = [] := by
      cases pre with
      | nil => rfl
      | cons a rest =>
        have h1 := hpre a (by simp)
        rw [hx] at h1
        exact absurd h1 (by simp)
    subst hpre0
    unfold selectBest
    rw [List.nil_append, List.foldl_cons]
    have hstep : selStep ("", ⊥) x = ("", ⊥) := by
      unfold selStep
      rw [if_neg (by rw [hx]; exact lt_irrefl ⊥)]
    rw [hstep, selFold_stay post ("", ⊥) (fun t ht => hx ▸ hpost t ht)]
    exact hxe.symm
  · have hbot : (⊥ : WithBot ℚ) < score_text x := Ne.bot_lt hx
    unfold selectBest
    rw [selFold_pre pre post x ("", ⊥) hbot hpre hpost]

theorem c4_witness :
    selectBest ["ааа", "НДС", "х"] = "НДС" ∧
    selectBest (List.replicate 24 "") = "" ∧
    finalLines (selectBest (List.replicate 24 "")) false = [] ∧
    String.intercalate "\n"
      (finalLines (selectBest (List.replicate 24 "")) false) = "" :=
  c4_best_selection ["ааа"] ["х"] "НДС"
    (by with_unfolding_all decide) (by with_unfolding_all decide)
